import Mathlib

/-!
A shallow embedding of `src/offchain/types/src/epoch.rs`: the `EpochState`
foldable with its two paths, `sync` (cold rebuild) and `fold` (warm advance).

External collaborators (the finalized-epoch ledger, the accumulating-epoch
tracker, the sealed-epoch tracker, the phase-change event query layer, block
timestamps and the bloom-filter utility) live outside `src/`; they are
modelled as a total environment `Env` of response functions, following the
interface description of the spec (§6).  Addresses, epoch numbers (`U256`),
timestamps and block numbers are modelled as `Nat`; the tracker snapshots
are abstract records carrying their epoch number and an opaque payload.
Block hashes are identified with block numbers (the chain under fold/sync is
a single linear history), so `get_block(hash).timestamp` becomes a
`timestamp : Nat → Nat` lookup.
-/

/-- Snapshot of the accumulating-epoch tracker (`AccumulatingEpoch`), keyed
by `(dapp_contract_address, epoch_number)`.  The `payload` stands for the
rest of the tracker state, which `epoch.rs` never inspects. -/
structure AccumulatingEpoch where
  epoch_number : Nat
  payload : Nat
deriving DecidableEq, Repr

/-- The "has claims" payload of a sealed epoch (`EpochWithClaims`). -/
structure EpochWithClaims where
  epoch_number : Nat
  payload : Nat
deriving DecidableEq, Repr

/-- The "no claims" payload of a sealed epoch (`SealedEpochNoClaims`' inner
`sealed_epoch` field). -/
structure EpochNoClaims where
  epoch_number : Nat
  payload : Nat
deriving DecidableEq, Repr

/-- `SealedEpochState`: a sealed epoch either has no claims yet or carries
at least one claim. -/
inductive SealedEpochState where
  | SealedEpochNoClaims (sealed_epoch : EpochNoClaims)
  | SealedEpochWithClaims (claimed_epoch : EpochWithClaims)
deriving DecidableEq, Repr

/-- `SealedEpochState::epoch_number()`. -/
def SealedEpochState.epoch_number : SealedEpochState → Nat
  | .SealedEpochNoClaims s => s.epoch_number
  | .SealedEpochWithClaims c => c.epoch_number

/-- Snapshot of the finalized-epoch ledger (`FinalizedEpochs`); the code
only reads `next_epoch()` (the number of finalized epochs), so the snapshot
is that number plus an opaque payload. -/
structure FinalizedEpochs where
  next_epoch : Nat
  payload : Nat
deriving DecidableEq, Repr

/-- `ContractPhase` from `epoch.rs`. -/
inductive ContractPhase where
  | InputAccumulation
  | AwaitingConsensus (sealed_epoch : SealedEpochState) (round_start : Nat)
  | AwaitingDispute (sealed_epoch : EpochWithClaims)
deriving DecidableEq, Repr

/-- `EpochState` from `epoch.rs`. -/
structure EpochState where
  initial_epoch : Nat
  current_phase : ContractPhase
  finalized_epochs : FinalizedEpochs
  current_epoch : AccumulatingEpoch
  phase_change_timestamp : Option Nat
  dapp_contract_address : Nat
deriving DecidableEq, Repr

/-- Errors surfaced by `sync`/`fold`.  `illegalState` is the distinguished
"Illegal state for AwaitingDispute" error, carrying the offending no-claims
snapshot; `unrecognizedPhase` is the "Could not convert new_phase" error,
carrying the offending code; `panicUnwrap` marks the (allegedly
unreachable) `phase_change_timestamp.unwrap()` panic of the code-1 sync
branch, modelled as an error so that its unreachability is provable. -/
inductive FoldableError where
  | illegalState (snap : EpochNoClaims)
  | unrecognizedPhase (code : Nat)
  | panicUnwrap
deriving DecidableEq, Repr

deriving instance DecidableEq for Except

/-- Modelled from the spec: responses of the external collaborators, which
are not under `src/` (spec §6).  `finalized a ie b` is the finalized-epoch
ledger snapshot for `(address a, initial_epoch ie)` at block `b`;
`accumulating a e b` and `sealed a e b` are the sub-tracker snapshots for
`(address a, epoch e)` at block `b`; `eventsIn a b` is the list of
phase-change event codes the contract at address `a` emitted in block `b`
itself, in order; `timestamp b` is block `b`'s timestamp;
`containsAddress b a` and `containsTopic b` are the bloom-filter checks of
block `b`'s log bloom for address `a` and for the phase-change event
signature. -/
structure Env where
  finalized : Nat → Nat → Nat → FinalizedEpochs
  accumulating : Nat → Nat → Nat → AccumulatingEpoch
  sealed : Nat → Nat → Nat → SealedEpochState
  eventsIn : Nat → Nat → List Nat
  timestamp : Nat → Nat
  containsAddress : Nat → Nat → Bool
  containsTopic : Nat → Bool

/-- Modelled from the spec: the cold-path event query "all phase-change
events for this contract address up to block B" (spec §6), each event
tagged with its origin block.  Blocks are visited in chain order, so
`List.getLast?` is the most recent event, as in the Rust `last()`. -/
def historyUpTo (env : Env) (a : Nat) : Nat → List (Nat × Nat)
  | 0 => (env.eventsIn a 0).map (fun c => (c, 0))
  | B + 1 =>
      historyUpTo env a B ++ (env.eventsIn a (B + 1)).map (fun c => (c, B + 1))

/-- The `phase_change_timestamp` computed by `sync`: `None` when no
phase-change event ever fired, otherwise the timestamp of the most recent
event's origin block (`middleware.get_block(meta.block_hash).timestamp`). -/
def syncTimestamp (env : Env) (a B : Nat) : Option Nat :=
  match (historyUpTo env a B).getLast? with
  | none => none
  | some (_, blk) => some (env.timestamp blk)

/-- `EpochState::sync` — the cold rebuild path.  Collaborator fetches are
total in the model (upstream I/O failures are out of scope of the claims),
so the only error exits are the two distinguished errors and the modelled
unwrap panic. -/
def EpochState.sync (env : Env) (dapp_contract_address initial_epoch B : Nat) :
    Except FoldableError EpochState :=
  let finalized_epochs := env.finalized dapp_contract_address initial_epoch B
  let next_epoch := finalized_epochs.next_epoch
  let phase_change_events := historyUpTo env dapp_contract_address B
  let phase_change_timestamp := syncTimestamp env dapp_contract_address B
  match phase_change_events.getLast? with
  | some (0, _) | none =>
      let current_epoch :=
        env.accumulating dapp_contract_address next_epoch B
      .ok { initial_epoch
            current_phase := .InputAccumulation
            finalized_epochs
            current_epoch
            phase_change_timestamp
            dapp_contract_address }
  | some (1, _) =>
      let sealed_epoch := env.sealed dapp_contract_address next_epoch B
      let current_epoch :=
        env.accumulating dapp_contract_address (next_epoch + 1) B
      match phase_change_timestamp with
      | none => .error .panicUnwrap
      | some round_start =>
          .ok { initial_epoch
                current_phase := .AwaitingConsensus sealed_epoch round_start
                finalized_epochs
                current_epoch
                phase_change_timestamp
                dapp_contract_address }
  | some (2, _) =>
      let sealed_epoch := env.sealed dapp_contract_address next_epoch B
      let current_epoch :=
        env.accumulating dapp_contract_address (next_epoch + 1) B
      match sealed_epoch with
      | .SealedEpochNoClaims s => .error (.illegalState s)
      | .SealedEpochWithClaims claimed_epoch =>
          .ok { initial_epoch
                current_phase := .AwaitingDispute claimed_epoch
                finalized_epochs
                current_epoch
                phase_change_timestamp
                dapp_contract_address }
  | some (new_phase, _) => .error (.unrecognizedPhase new_phase)

/-- `EpochState::fold` — the warm advance path, advancing `previous_state`
by the single new block `b`.  The warm-path event query is restricted to
the new block (`env.eventsIn _ b`), per the spec's event-query interface
(§6). -/
def EpochState.fold (env : Env) (previous_state : EpochState) (b : Nat) :
    Except FoldableError EpochState :=
  let dapp_contract_address := previous_state.dapp_contract_address
  if !(env.containsAddress b dapp_contract_address && env.containsTopic b) then
    -- Current phase has not changed, but the sub-states are refreshed.
    let current_epoch :=
      env.accumulating dapp_contract_address
        previous_state.current_epoch.epoch_number b
    match previous_state.current_phase with
    | .InputAccumulation =>
        .ok { previous_state with
              current_phase := .InputAccumulation
              current_epoch }
    | .AwaitingConsensus sealed_epoch round_start =>
        let sealed_epoch :=
          env.sealed dapp_contract_address sealed_epoch.epoch_number b
        .ok { previous_state with
              current_phase := .AwaitingConsensus sealed_epoch round_start
              current_epoch }
    | .AwaitingDispute sealed_epoch =>
        let sealed_epoch :=
          env.sealed dapp_contract_address sealed_epoch.epoch_number b
        match sealed_epoch with
        | .SealedEpochNoClaims s => .error (.illegalState s)
        | .SealedEpochWithClaims claimed_epoch =>
            .ok { previous_state with
                  current_phase := .AwaitingDispute claimed_epoch
                  current_epoch }
  else
    let finalized_epochs :=
      env.finalized dapp_contract_address previous_state.initial_epoch b
    let next_epoch := finalized_epochs.next_epoch
    let phase_change_events := env.eventsIn dapp_contract_address b
    let phase_change_timestamp :=
      if phase_change_events.isEmpty then
        previous_state.phase_change_timestamp
      else
        some (env.timestamp b)
    match phase_change_events.getLast? with
    | some 0 | none =>
        let current_epoch :=
          env.accumulating dapp_contract_address next_epoch b
        .ok { initial_epoch := previous_state.initial_epoch
              current_phase := .InputAccumulation
              finalized_epochs
              current_epoch
              phase_change_timestamp
              dapp_contract_address }
    | some 1 =>
        let sealed_epoch := env.sealed dapp_contract_address next_epoch b
        let current_epoch :=
          env.accumulating dapp_contract_address (next_epoch + 1) b
        let round_start := env.timestamp b
        .ok { initial_epoch := previous_state.initial_epoch
              current_phase := .AwaitingConsensus sealed_epoch round_start
              finalized_epochs
              current_epoch
              phase_change_timestamp
              dapp_contract_address }
    | some 2 =>
        let sealed_epoch := env.sealed dapp_contract_address next_epoch b
        let current_epoch :=
          env.accumulating dapp_contract_address (next_epoch + 1) b
        match sealed_epoch with
        | .SealedEpochNoClaims s => .error (.illegalState s)
        | .SealedEpochWithClaims claimed_epoch =>
            .ok { initial_epoch := previous_state.initial_epoch
                  current_phase := .AwaitingDispute claimed_epoch
                  finalized_epochs
                  current_epoch
                  phase_change_timestamp
                  dapp_contract_address }
    | some new_phase => .error (.unrecognizedPhase new_phase)

/-- `N` successive warm advances applied to a (possibly failed) prior
result: block `b0 + 1`, then `b0 + 2`, …, then `b0 + N`. -/
def foldChain (env : Env) (b0 : Nat) (r : Except FoldableError EpochState) :
    Nat → Except FoldableError EpochState
  | 0 => r
  | n + 1 => (foldChain env b0 r n).bind (fun s => s.fold env (b0 + (n + 1)))

/-- C4: in the cold rebuild path, code 0 or no event yields
`InputAccumulation` with the accumulating epoch fetched at `next_epoch`;
code 1 yields `AwaitingConsensus` with the sealed epoch fetched at
`next_epoch`, the accumulating epoch fetched at `next_epoch + 1`, and
`round_start` the timestamp of the most recent phase-change event's origin
block. -/
theorem sync_branches_on_last_phase_code :
    (∀ env a ie B,
       ((historyUpTo env a B).getLast? = none ∨
        ∃ blk, (historyUpTo env a B).getLast? = some (0, blk)) →
       EpochState.sync env a ie B =
         .ok { initial_epoch := ie
               current_phase := .InputAccumulation
               finalized_epochs := env.finalized a ie B
               current_epoch :=
                 env.accumulating a (env.finalized a ie B).next_epoch B
               phase_change_timestamp := syncTimestamp env a B
               dapp_contract_address := a }) ∧
    (∀ env a ie B blk,
       (historyUpTo env a B).getLast? = some (1, blk) →
       EpochState.sync env a ie B =
         .ok { initial_epoch := ie
               current_phase := .AwaitingConsensus
                 (env.sealed a (env.finalized a ie B).next_epoch B)
                 (env.timestamp blk)
               finalized_epochs := env.finalized a ie B
               current_epoch :=
                 env.accumulating a ((env.finalized a ie B).next_epoch + 1) B
               phase_change_timestamp := some (env.timestamp blk)
               dapp_contract_address := a }) := by
  constructor
  · intro env a ie B h
    rcases h with h | ⟨blk, h⟩ <;>
      simp only [EpochState.sync, h]
  · intro env a ie B blk h
    simp only [EpochState.sync, syncTimestamp, h]

/-! ### Concrete environments and states, used to instantiate theorems -/

/-- Environment with one code-1 phase-change event in block 0, sealed
epochs with claims, and an always-positive bloom filter (so block 1 is a
bloom false positive: no event fired there). -/
def envConsensus : Env where
  finalized := fun _ _ _ => ⟨0, 0⟩
  accumulating := fun _ e _ => ⟨e, 0⟩
  sealed := fun _ e _ => .SealedEpochWithClaims ⟨e, 0⟩
  eventsIn := fun _ b => if b = 0 then [1] else []
  timestamp := fun b => b
  containsAddress := fun _ _ => true
  containsTopic := fun _ => true

/-- Environment with no phase-change events at all and a bloom filter that
reports nothing. -/
def envQuiet : Env where
  finalized := fun _ _ _ => ⟨0, 0⟩
  accumulating := fun _ e _ => ⟨e, 0⟩
  sealed := fun _ e _ => .SealedEpochWithClaims ⟨e, 0⟩
  eventsIn := fun _ _ => []
  timestamp := fun b => b
  containsAddress := fun _ _ => false
  containsTopic := fun _ => false

/-- Environment with one unrecognized phase-change code (7) in block 1. -/
def envBadCode : Env where
  finalized := fun _ _ _ => ⟨0, 0⟩
  accumulating := fun _ e _ => ⟨e, 0⟩
  sealed := fun _ e _ => .SealedEpochWithClaims ⟨e, 0⟩
  eventsIn := fun _ b => if b = 1 then [7] else []
  timestamp := fun b => b
  containsAddress := fun _ _ => true
  containsTopic := fun _ => true

/-- Environment with a code-2 phase-change event in block 1 whose sealed
epoch reports no claims. -/
def envNoClaims : Env where
  finalized := fun _ _ _ => ⟨0, 0⟩
  accumulating := fun _ e _ => ⟨e, 0⟩
  sealed := fun _ e _ => .SealedEpochNoClaims ⟨e, 0⟩
  eventsIn := fun _ b => if b = 1 then [2] else []
  timestamp := fun b => b
  containsAddress := fun _ _ => true
  containsTopic := fun _ => true

/-- A concrete `InputAccumulation` state. -/
def stInputAcc : EpochState :=
  ⟨0, .InputAccumulation, ⟨0, 0⟩, ⟨0, 0⟩, none, 0⟩

/-- A concrete `AwaitingConsensus` state. -/
def stAwaitCons : EpochState :=
  ⟨0, .AwaitingConsensus (.SealedEpochWithClaims ⟨0, 0⟩) 0, ⟨0, 0⟩,
    ⟨1, 0⟩, some 0, 0⟩

/-- A concrete `AwaitingDispute` state. -/
def stAwaitDisp : EpochState :=
  ⟨0, .AwaitingDispute ⟨0, 0⟩, ⟨0, 0⟩, ⟨1, 0⟩, some 0, 0⟩

/-- Witness for C4 at concrete inputs: the no-event branch on `envQuiet`
and the code-1 branch on `envConsensus`. -/
theorem sync_branches_on_last_phase_code_witness :
    EpochState.sync envQuiet 0 0 2 =
      .ok { initial_epoch := 0
            current_phase := .InputAccumulation
            finalized_epochs := envQuiet.finalized 0 0 2
            current_epoch :=
              envQuiet.accumulating 0 (envQuiet.finalized 0 0 2).next_epoch 2
            phase_change_timestamp := syncTimestamp envQuiet 0 2
            dapp_contract_address := 0 } ∧
    EpochState.sync envConsensus 0 0 1 =
      .ok { initial_epoch := 0
            current_phase := .AwaitingConsensus
              (envConsensus.sealed 0 (envConsensus.finalized 0 0 1).next_epoch 1)
              (envConsensus.timestamp 0)
            finalized_epochs := envConsensus.finalized 0 0 1
            current_epoch :=
              envConsensus.accumulating 0
                ((envConsensus.finalized 0 0 1).next_epoch + 1) 1
            phase_change_timestamp := some (envConsensus.timestamp 0)
            dapp_contract_address := 0 } :=
  ⟨sync_branches_on_last_phase_code.1 envQuiet 0 0 2 (Or.inl (by decide)),
   sync_branches_on_last_phase_code.2 envConsensus 0 0 1 0 (by decide)⟩

/-- Does a `sync`/`fold` result hit the modelled
`phase_change_timestamp.unwrap()` panic? -/
def isPanicUnwrap : Except FoldableError EpochState → Bool
  | .error .panicUnwrap => true
  | _ => false

/-- C9: the code-1 branch of the cold rebuild path can never panic on
`phase_change_timestamp.unwrap()`: whenever any phase-change event exists
(which is what reaches that branch), the timestamp is already resolved to
the last event's origin-block timestamp, so `sync` never returns the
modelled panic. -/
theorem sync_round_start_unwrap_safe :
    (∀ env a ie B, isPanicUnwrap (EpochState.sync env a ie B) = false) ∧
    (∀ env a B p, (historyUpTo env a B).getLast? = some p →
       syncTimestamp env a B = some (env.timestamp p.2)) := by
  constructor
  · intro env a ie B
    unfold EpochState.sync
    cases h : (historyUpTo env a B).getLast? with
    | none => simp [h, isPanicUnwrap]
    | some p =>
      obtain ⟨c, blk⟩ := p
      have hts : syncTimestamp env a B = some (env.timestamp blk) := by
        simp [syncTimestamp, h]
      match c with
      | 0 => simp [h, isPanicUnwrap]
      | 1 => simp [h, hts, isPanicUnwrap]
      | 2 =>
        simp only [h]
        cases env.sealed a (env.finalized a ie B).next_epoch B <;>
          simp [isPanicUnwrap]
      | (n + 3) => simp [h, isPanicUnwrap]
  · intro env a B p h
    simp [syncTimestamp, h]

/-- Witness for C9's second conjunct at a concrete input. -/
theorem sync_round_start_unwrap_safe_witness :
    isPanicUnwrap (EpochState.sync envConsensus 0 0 1) = false ∧
    syncTimestamp envConsensus 0 1 = some (envConsensus.timestamp 0) :=
  ⟨sync_round_start_unwrap_safe.1 envConsensus 0 0 1,
   sync_round_start_unwrap_safe.2 envConsensus 0 1 (1, 0) (by decide)⟩

theorem fold_event_empty (env : Env) (prev : EpochState) (b : Nat)
    (hbloom : (env.containsAddress b prev.dapp_contract_address &&
      env.containsTopic b) = true)
    (hempty : env.eventsIn prev.dapp_contract_address b = []) :
    prev.fold env b =
      .ok { initial_epoch := prev.initial_epoch
            current_phase := .InputAccumulation
            finalized_epochs :=
              env.finalized prev.dapp_contract_address prev.initial_epoch b
            current_epoch :=
              env.accumulating prev.dapp_contract_address
                (env.finalized prev.dapp_contract_address
                  prev.initial_epoch b).next_epoch b
            phase_change_timestamp := prev.phase_change_timestamp
            dapp_contract_address := prev.dapp_contract_address } := by
  simp [EpochState.fold, hbloom, hempty]

/-- C10: in the warm advance path, when the bloom filter reports a possible
event but the single-block phase-change query comes back empty, the result
is `InputAccumulation` with the accumulating epoch fetched at the
recomputed `next_epoch`, whatever the previous phase was, and
`phase_change_timestamp` is carried over from the previous state. -/
theorem fold_empty_query_resets_phase :
    ∀ env (prev : EpochState) b,
      (env.containsAddress b prev.dapp_contract_address &&
        env.containsTopic b) = true →
      env.eventsIn prev.dapp_contract_address b = [] →
      prev.fold env b =
        .ok { initial_epoch := prev.initial_epoch
              current_phase := .InputAccumulation
              finalized_epochs :=
                env.finalized prev.dapp_contract_address prev.initial_epoch b
              current_epoch :=
                env.accumulating prev.dapp_contract_address
                  (env.finalized prev.dapp_contract_address
                    prev.initial_epoch b).next_epoch b
              phase_change_timestamp := prev.phase_change_timestamp
              dapp_contract_address := prev.dapp_contract_address } := by
  intro env prev b hbloom hempty
  simp [EpochState.fold, hbloom, hempty]

/-- Witness for C10: advancing the concrete `AwaitingConsensus` state over
`envConsensus`'s block 1 (bloom positive, no event) drops the phase back to
`InputAccumulation`. -/
theorem fold_empty_query_resets_phase_witness :
    EpochState.fold envConsensus stAwaitCons 1 =
      .ok { initial_epoch := stAwaitCons.initial_epoch
            current_phase := .InputAccumulation
            finalized_epochs :=
              envConsensus.finalized stAwaitCons.dapp_contract_address
                stAwaitCons.initial_epoch 1
            current_epoch :=
              envConsensus.accumulating stAwaitCons.dapp_contract_address
                (envConsensus.finalized stAwaitCons.dapp_contract_address
                  stAwaitCons.initial_epoch 1).next_epoch 1
            phase_change_timestamp := stAwaitCons.phase_change_timestamp
            dapp_contract_address := stAwaitCons.dapp_contract_address } :=
  fold_empty_query_resets_phase envConsensus stAwaitCons 1 (by decide)
    (by decide)

/-- C8: whenever the most recent phase-change event carries a code outside
{0, 1, 2}, both the cold rebuild path and the warm advance path fail with
the distinguished unrecognized-phase-code error carrying that code. -/
theorem unrecognized_phase_code_fails :
    (∀ env a ie B c blk,
       (historyUpTo env a B).getLast? = some (c, blk) →
       c ≠ 0 → c ≠ 1 → c ≠ 2 →
       EpochState.sync env a ie B = .error (.unrecognizedPhase c)) ∧
    (∀ env (prev : EpochState) b c,
       (env.containsAddress b prev.dapp_contract_address &&
         env.containsTopic b) = true →
       (env.eventsIn prev.dapp_contract_address b).getLast? = some c →
       c ≠ 0 → c ≠ 1 → c ≠ 2 →
       prev.fold env b = .error (.unrecognizedPhase c)) := by
  constructor
  · intro env a ie B c blk h h0 h1 h2
    rcases c with _ | _ | _ | n
    · exact absurd rfl h0
    · exact absurd rfl h1
    · exact absurd rfl h2
    · simp [EpochState.sync, h]
  · intro env prev b c hbloom h h0 h1 h2
    rcases c with _ | _ | _ | n
    · exact absurd rfl h0
    · exact absurd rfl h1
    · exact absurd rfl h2
    · simp [EpochState.fold, hbloom, h]

/-- Witness for C8: the code-7 event of `envBadCode`'s block 1 makes both
paths fail with the unrecognized-phase-code error. -/
theorem unrecognized_phase_code_fails_witness :
    EpochState.sync envBadCode 0 0 1 = .error (.unrecognizedPhase 7) ∧
    EpochState.fold envBadCode stInputAcc 1 = .error (.unrecognizedPhase 7) :=
  ⟨unrecognized_phase_code_fails.1 envBadCode 0 0 1 7 1 (by decide)
     (by decide) (by decide) (by decide),
   unrecognized_phase_code_fails.2 envBadCode stInputAcc 1 7 (by decide)
     (by decide) (by decide) (by decide) (by decide)⟩

/-- C3: a sealed-epoch snapshot reporting "no claims" while constructing or
refreshing `AwaitingDispute` always aborts with the illegal-state error
carrying that snapshot: in the cold rebuild's code-2 branch, in the warm
no-event branch refreshing a previous `AwaitingDispute`, and in the warm
possible-event code-2 branch.  No `EpochState` is returned in any of the
three. -/
theorem no_claims_dispute_rejected :
    (∀ env a ie B blk s0,
       (historyUpTo env a B).getLast? = some (2, blk) →
       env.sealed a (env.finalized a ie B).next_epoch B =
         .SealedEpochNoClaims s0 →
       EpochState.sync env a ie B = .error (.illegalState s0)) ∧
    (∀ env (prev : EpochState) b ce s0,
       (env.containsAddress b prev.dapp_contract_address &&
         env.containsTopic b) = false →
       prev.current_phase = .AwaitingDispute ce →
       env.sealed prev.dapp_contract_address ce.epoch_number b =
         .SealedEpochNoClaims s0 →
       prev.fold env b = .error (.illegalState s0)) ∧
    (∀ env (prev : EpochState) b s0,
       (env.containsAddress b prev.dapp_contract_address &&
         env.containsTopic b) = true →
       (env.eventsIn prev.dapp_contract_address b).getLast? = some 2 →
       env.sealed prev.dapp_contract_address
         (env.finalized prev.dapp_contract_address
           prev.initial_epoch b).next_epoch b =
         .SealedEpochNoClaims s0 →
       prev.fold env b = .error (.illegalState s0)) := by
  refine ⟨?_, ?_, ?_⟩
  · intro env a ie B blk s0 h hsealed
    simp [EpochState.sync, h, hsealed]
  · intro env prev b ce s0 hbloom hphase hsealed
    simp [EpochState.fold, hbloom, hphase, hsealed]
  · intro env prev b s0 hbloom h hsealed
    simp [EpochState.fold, hbloom, h, hsealed]

/-- Witness for C3 at concrete inputs, one per code path. -/
theorem no_claims_dispute_rejected_witness :
    EpochState.sync envNoClaims 0 0 1 = .error (.illegalState ⟨0, 0⟩) ∧
    EpochState.fold
      { envNoClaims with containsTopic := fun _ => false } stAwaitDisp 1 =
      .error (.illegalState ⟨0, 0⟩) ∧
    EpochState.fold envNoClaims stInputAcc 1 =
      .error (.illegalState ⟨0, 0⟩) :=
  ⟨no_claims_dispute_rejected.1 envNoClaims 0 0 1 1 ⟨0, 0⟩ (by decide)
     (by decide),
   no_claims_dispute_rejected.2.1
     { envNoClaims with containsTopic := fun _ => false } stAwaitDisp 1
     ⟨0, 0⟩ ⟨0, 0⟩ (by decide) (by decide) (by decide),
   no_claims_dispute_rejected.2.2 envNoClaims stInputAcc 1 ⟨0, 0⟩ (by decide)
     (by decide) (by decide)⟩

/-- C2: the warm advance path only ever consults the phase-change events of
the single new block.  Formally, two environments that agree on every
collaborator response except the phase-change event lists of other blocks
give identical `fold` results: the full event history is never queried. -/
theorem fold_queries_single_block_only :
    ∀ (env env' : Env) (prev : EpochState) b,
      env'.finalized = env.finalized →
      env'.accumulating = env.accumulating →
      env'.sealed = env.sealed →
      env'.timestamp = env.timestamp →
      env'.containsAddress = env.containsAddress →
      env'.containsTopic = env.containsTopic →
      env'.eventsIn prev.dapp_contract_address b =
        env.eventsIn prev.dapp_contract_address b →
      prev.fold env' b = prev.fold env b := by
  intro env env' prev b hf hac hse hts hca hct hev
  simp [EpochState.fold, hf, hac, hse, hts, hca, hct, hev]

/-- Witness for C2: erasing the historical (block-0) events of
`envConsensus` leaves the advance over block 1 unchanged. -/
theorem fold_queries_single_block_only_witness :
    EpochState.fold { envConsensus with eventsIn := fun _ _ => [] }
      stAwaitCons 1 =
      EpochState.fold envConsensus stAwaitCons 1 :=
  fold_queries_single_block_only envConsensus
    { envConsensus with eventsIn := fun _ _ => [] } stAwaitCons 1
    rfl rfl rfl rfl rfl rfl (by decide)

/-- Discriminant of a `ContractPhase` (which variant it is). -/
def ContractPhase.tag : ContractPhase → Nat
  | .InputAccumulation => 0
  | .AwaitingConsensus _ _ => 1
  | .AwaitingDispute _ => 2

/-- The `round_start` carried by a phase, when the phase is
`AwaitingConsensus`. -/
def ContractPhase.roundStart : ContractPhase → Option Nat
  | .AwaitingConsensus _ rs => some rs
  | _ => none

/-- The sealed-epoch snapshot carried by a phase, if any (for
`AwaitingDispute` the narrowed payload is re-wrapped as a with-claims
snapshot). -/
def ContractPhase.sealedSnapshot : ContractPhase → Option SealedEpochState
  | .AwaitingConsensus se _ => some se
  | .AwaitingDispute c => some (.SealedEpochWithClaims c)
  | .InputAccumulation => none


/-! ### Branch-equation lemmas for `fold` (shared by several claims) -/

theorem fold_noEvent_input (env : Env) (prev : EpochState) (b : Nat)
    (hbloom : (env.containsAddress b prev.dapp_contract_address &&
      env.containsTopic b) = false)
    (hp : prev.current_phase = .InputAccumulation) :
    prev.fold env b =
      .ok { prev with
            current_phase := .InputAccumulation
            current_epoch :=
              env.accumulating prev.dapp_contract_address
                prev.current_epoch.epoch_number b } := by
  simp [EpochState.fold, hbloom, hp]

theorem fold_noEvent_consensus (env : Env) (prev : EpochState) (b : Nat)
    (se : SealedEpochState) (rs : Nat)
    (hbloom : (env.containsAddress b prev.dapp_contract_address &&
      env.containsTopic b) = false)
    (hp : prev.current_phase = .AwaitingConsensus se rs) :
    prev.fold env b =
      .ok { prev with
            current_phase := .AwaitingConsensus
              (env.sealed prev.dapp_contract_address se.epoch_number b) rs
            current_epoch :=
              env.accumulating prev.dapp_contract_address
                prev.current_epoch.epoch_number b } := by
  simp [EpochState.fold, hbloom, hp]

theorem fold_noEvent_dispute_noclaims (env : Env) (prev : EpochState)
    (b : Nat) (ce : EpochWithClaims) (s0 : EpochNoClaims)
    (hbloom : (env.containsAddress b prev.dapp_contract_address &&
      env.containsTopic b) = false)
    (hp : prev.current_phase = .AwaitingDispute ce)
    (hse : env.sealed prev.dapp_contract_address ce.epoch_number b =
      .SealedEpochNoClaims s0) :
    prev.fold env b = .error (.illegalState s0) := by
  simp [EpochState.fold, hbloom, hp, hse]

theorem fold_noEvent_dispute_claims (env : Env) (prev : EpochState) (b : Nat)
    (ce c : EpochWithClaims)
    (hbloom : (env.containsAddress b prev.dapp_contract_address &&
      env.containsTopic b) = false)
    (hp : prev.current_phase = .AwaitingDispute ce)
    (hse : env.sealed prev.dapp_contract_address ce.epoch_number b =
      .SealedEpochWithClaims c) :
    prev.fold env b =
      .ok { prev with
            current_phase := .AwaitingDispute c
            current_epoch :=
              env.accumulating prev.dapp_contract_address
                prev.current_epoch.epoch_number b } := by
  simp [EpochState.fold, hbloom, hp, hse]

theorem eventsIn_isEmpty_false_of_getLast (env : Env) (a b : Nat) (c : Nat)
    (hlast : (env.eventsIn a b).getLast? = some c) :
    (env.eventsIn a b).isEmpty = false := by
  cases hl : env.eventsIn a b with
  | nil => rw [hl] at hlast; simp at hlast
  | cons x xs => rfl

theorem fold_event_code0 (env : Env) (prev : EpochState) (b : Nat)
    (hbloom : (env.containsAddress b prev.dapp_contract_address &&
      env.containsTopic b) = true)
    (hlast : (env.eventsIn prev.dapp_contract_address b).getLast? = some 0) :
    prev.fold env b =
      .ok { initial_epoch := prev.initial_epoch
            current_phase := .InputAccumulation
            finalized_epochs :=
              env.finalized prev.dapp_contract_address prev.initial_epoch b
            current_epoch :=
              env.accumulating prev.dapp_contract_address
                (env.finalized prev.dapp_contract_address
                  prev.initial_epoch b).next_epoch b
            phase_change_timestamp := some (env.timestamp b)
            dapp_contract_address := prev.dapp_contract_address } := by
  have hne := eventsIn_isEmpty_false_of_getLast env
    prev.dapp_contract_address b 0 hlast
  simp [EpochState.fold, hbloom, hlast, hne]

theorem fold_event_code1 (env : Env) (prev : EpochState) (b : Nat)
    (hbloom : (env.containsAddress b prev.dapp_contract_address &&
      env.containsTopic b) = true)
    (hlast : (env.eventsIn prev.dapp_contract_address b).getLast? = some 1) :
    prev.fold env b =
      .ok { initial_epoch := prev.initial_epoch
            current_phase := .AwaitingConsensus
              (env.sealed prev.dapp_contract_address
                (env.finalized prev.dapp_contract_address
                  prev.initial_epoch b).next_epoch b)
              (env.timestamp b)
            finalized_epochs :=
              env.finalized prev.dapp_contract_address prev.initial_epoch b
            current_epoch :=
              env.accumulating prev.dapp_contract_address
                ((env.finalized prev.dapp_contract_address
                  prev.initial_epoch b).next_epoch + 1) b
            phase_change_timestamp := some (env.timestamp b)
            dapp_contract_address := prev.dapp_contract_address } := by
  have hne := eventsIn_isEmpty_false_of_getLast env
    prev.dapp_contract_address b 1 hlast
  simp [EpochState.fold, hbloom, hlast, hne]

theorem fold_event_code2_claims (env : Env) (prev : EpochState) (b : Nat)
    (c : EpochWithClaims)
    (hbloom : (env.containsAddress b prev.dapp_contract_address &&
      env.containsTopic b) = true)
    (hlast : (env.eventsIn prev.dapp_contract_address b).getLast? = some 2)
    (hse : env.sealed prev.dapp_contract_address
      (env.finalized prev.dapp_contract_address
        prev.initial_epoch b).next_epoch b = .SealedEpochWithClaims c) :
    prev.fold env b =
      .ok { initial_epoch := prev.initial_epoch
            current_phase := .AwaitingDispute c
            finalized_epochs :=
              env.finalized prev.dapp_contract_address prev.initial_epoch b
            current_epoch :=
              env.accumulating prev.dapp_contract_address
                ((env.finalized prev.dapp_contract_address
                  prev.initial_epoch b).next_epoch + 1) b
            phase_change_timestamp := some (env.timestamp b)
            dapp_contract_address := prev.dapp_contract_address } := by
  have hne := eventsIn_isEmpty_false_of_getLast env
    prev.dapp_contract_address b 2 hlast
  simp [EpochState.fold, hbloom, hlast, hne, hse]

theorem fold_event_code2_noclaims (env : Env) (prev : EpochState) (b : Nat)
    (s0 : EpochNoClaims)
    (hbloom : (env.containsAddress b prev.dapp_contract_address &&
      env.containsTopic b) = true)
    (hlast : (env.eventsIn prev.dapp_contract_address b).getLast? = some 2)
    (hse : env.sealed prev.dapp_contract_address
      (env.finalized prev.dapp_contract_address
        prev.initial_epoch b).next_epoch b = .SealedEpochNoClaims s0) :
    prev.fold env b = .error (.illegalState s0) := by
  simp [EpochState.fold, hbloom, hlast, hse]

theorem fold_event_codeBad (env : Env) (prev : EpochState) (b n : Nat)
    (hbloom : (env.containsAddress b prev.dapp_contract_address &&
      env.containsTopic b) = true)
    (hlast : (env.eventsIn prev.dapp_contract_address b).getLast? =
      some (n + 3)) :
    prev.fold env b = .error (.unrecognizedPhase (n + 3)) := by
  simp [EpochState.fold, hbloom, hlast]

/-! ### Branch-equation lemmas for `sync` -/

theorem sync_last_none (env : Env) (a ie B : Nat)
    (hlast : (historyUpTo env a B).getLast? = none) :
    EpochState.sync env a ie B =
      .ok { initial_epoch := ie
            current_phase := .InputAccumulation
            finalized_epochs := env.finalized a ie B
            current_epoch :=
              env.accumulating a (env.finalized a ie B).next_epoch B
            phase_change_timestamp := none
            dapp_contract_address := a } := by
  simp [EpochState.sync, syncTimestamp, hlast]

theorem sync_last_code0 (env : Env) (a ie B blk : Nat)
    (hlast : (historyUpTo env a B).getLast? = some (0, blk)) :
    EpochState.sync env a ie B =
      .ok { initial_epoch := ie
            current_phase := .InputAccumulation
            finalized_epochs := env.finalized a ie B
            current_epoch :=
              env.accumulating a (env.finalized a ie B).next_epoch B
            phase_change_timestamp := some (env.timestamp blk)
            dapp_contract_address := a } := by
  simp [EpochState.sync, syncTimestamp, hlast]

theorem sync_last_code1 (env : Env) (a ie B blk : Nat)
    (hlast : (historyUpTo env a B).getLast? = some (1, blk)) :
    EpochState.sync env a ie B =
      .ok { initial_epoch := ie
            current_phase := .AwaitingConsensus
              (env.sealed a (env.finalized a ie B).next_epoch B)
              (env.timestamp blk)
            finalized_epochs := env.finalized a ie B
            current_epoch :=
              env.accumulating a ((env.finalized a ie B).next_epoch + 1) B
            phase_change_timestamp := some (env.timestamp blk)
            dapp_contract_address := a } := by
  simp [EpochState.sync, syncTimestamp, hlast]

theorem sync_last_code2_claims (env : Env) (a ie B blk : Nat)
    (c : EpochWithClaims)
    (hlast : (historyUpTo env a B).getLast? = some (2, blk))
    (hse : env.sealed a (env.finalized a ie B).next_epoch B =
      .SealedEpochWithClaims c) :
    EpochState.sync env a ie B =
      .ok { initial_epoch := ie
            current_phase := .AwaitingDispute c
            finalized_epochs := env.finalized a ie B
            current_epoch :=
              env.accumulating a ((env.finalized a ie B).next_epoch + 1) B
            phase_change_timestamp := some (env.timestamp blk)
            dapp_contract_address := a } := by
  simp [EpochState.sync, syncTimestamp, hlast, hse]

theorem sync_last_code2_noclaims (env : Env) (a ie B blk : Nat)
    (s0 : EpochNoClaims)
    (hlast : (historyUpTo env a B).getLast? = some (2, blk))
    (hse : env.sealed a (env.finalized a ie B).next_epoch B =
      .SealedEpochNoClaims s0) :
    EpochState.sync env a ie B = .error (.illegalState s0) := by
  simp [EpochState.sync, hlast, hse]

theorem sync_last_codeBad (env : Env) (a ie B blk n : Nat)
    (hlast : (historyUpTo env a B).getLast? = some (n + 3, blk)) :
    EpochState.sync env a ie B = .error (.unrecognizedPhase (n + 3)) := by
  simp [EpochState.sync, hlast]

/-- C5: when the bloom filter reports the tracked address or the
phase-change signature absent, the warm advance keeps the phase variant,
`round_start`, `phase_change_timestamp`, `initial_epoch`,
`finalized_epochs` and the contract address of the previous state, while
the accumulating-epoch snapshot — and the sealed-epoch snapshot, when the
previous phase carried one — are freshly re-fetched at the new block at
their previous epoch numbers. -/
theorem fold_bloom_miss_preserves_phase :
    ∀ env (prev : EpochState) b s,
      (env.containsAddress b prev.dapp_contract_address &&
        env.containsTopic b) = false →
      prev.fold env b = .ok s →
      s.current_phase.tag = prev.current_phase.tag ∧
      s.current_phase.roundStart = prev.current_phase.roundStart ∧
      s.phase_change_timestamp = prev.phase_change_timestamp ∧
      s.initial_epoch = prev.initial_epoch ∧
      s.finalized_epochs = prev.finalized_epochs ∧
      s.dapp_contract_address = prev.dapp_contract_address ∧
      s.current_epoch =
        env.accumulating prev.dapp_contract_address
          prev.current_epoch.epoch_number b ∧
      (∀ pse, prev.current_phase.sealedSnapshot = some pse →
        s.current_phase.sealedSnapshot =
          some (env.sealed prev.dapp_contract_address
            pse.epoch_number b)) := by
  intro env prev b s hbloom hok
  cases hp : prev.current_phase with
  | InputAccumulation =>
    rw [fold_noEvent_input env prev b hbloom hp] at hok
    simp only [Except.ok.injEq] at hok
    subst hok
    simp [ContractPhase.tag, ContractPhase.roundStart,
      ContractPhase.sealedSnapshot, hp]
  | AwaitingConsensus se rs =>
    rw [fold_noEvent_consensus env prev b se rs hbloom hp] at hok
    simp only [Except.ok.injEq] at hok
    subst hok
    simp [ContractPhase.tag, ContractPhase.roundStart,
      ContractPhase.sealedSnapshot, hp]
  | AwaitingDispute ce =>
    cases hse : env.sealed prev.dapp_contract_address ce.epoch_number b with
    | SealedEpochNoClaims s0 =>
      rw [fold_noEvent_dispute_noclaims env prev b ce s0 hbloom hp hse] at hok
      simp at hok
    | SealedEpochWithClaims c =>
      rw [fold_noEvent_dispute_claims env prev b ce c hbloom hp hse] at hok
      simp only [Except.ok.injEq] at hok
      subst hok
      simp [ContractPhase.tag, ContractPhase.roundStart,
        ContractPhase.sealedSnapshot, hp, SealedEpochState.epoch_number, hse]

/-- Witness for C5: advancing the concrete `AwaitingConsensus` state over
`envQuiet`'s (bloom-negative) block 1. -/
theorem fold_bloom_miss_preserves_phase_witness :
    EpochState.fold envQuiet stAwaitCons 1 =
      .ok { stAwaitCons with
            current_phase := .AwaitingConsensus
              (.SealedEpochWithClaims ⟨0, 0⟩) 0
            current_epoch := ⟨1, 0⟩ } ∧
    ({ stAwaitCons with
       current_phase := .AwaitingConsensus (.SealedEpochWithClaims ⟨0, 0⟩) 0
       current_epoch :=
         (⟨1, 0⟩ : AccumulatingEpoch) } : EpochState).current_phase.tag =
      stAwaitCons.current_phase.tag ∧
    ({ stAwaitCons with
       current_phase := .AwaitingConsensus (.SealedEpochWithClaims ⟨0, 0⟩) 0
       current_epoch :=
         (⟨1, 0⟩ : AccumulatingEpoch) } : EpochState).phase_change_timestamp =
      stAwaitCons.phase_change_timestamp := by
  have hok : EpochState.fold envQuiet stAwaitCons 1 =
      .ok { stAwaitCons with
            current_phase := .AwaitingConsensus
              (.SealedEpochWithClaims ⟨0, 0⟩) 0
            current_epoch := ⟨1, 0⟩ } := by decide
  have h := fold_bloom_miss_preserves_phase envQuiet stAwaitCons 1
    { stAwaitCons with
      current_phase := .AwaitingConsensus (.SealedEpochWithClaims ⟨0, 0⟩) 0
      current_epoch := ⟨1, 0⟩ } (by decide) hok
  exact ⟨hok, h.1, h.2.2.1⟩

theorem sync_ok_pct (env : Env) (a ie B : Nat) (s : EpochState)
    (h : EpochState.sync env a ie B = .ok s) :
    s.phase_change_timestamp = syncTimestamp env a B := by
  cases hlast : (historyUpTo env a B).getLast? with
  | none =>
    rw [sync_last_none env a ie B hlast] at h
    simp only [Except.ok.injEq] at h
    subst h
    simp [syncTimestamp, hlast]
  | some p =>
    obtain ⟨c, blk⟩ := p
    match c with
    | 0 =>
      rw [sync_last_code0 env a ie B blk hlast] at h
      simp only [Except.ok.injEq] at h
      subst h
      simp [syncTimestamp, hlast]
    | 1 =>
      rw [sync_last_code1 env a ie B blk hlast] at h
      simp only [Except.ok.injEq] at h
      subst h
      simp [syncTimestamp, hlast]
    | 2 =>
      cases hse : env.sealed a (env.finalized a ie B).next_epoch B with
      | SealedEpochNoClaims s0 =>
        rw [sync_last_code2_noclaims env a ie B blk s0 hlast hse] at h
        simp at h
      | SealedEpochWithClaims c =>
        rw [sync_last_code2_claims env a ie B blk c hlast hse] at h
        simp only [Except.ok.injEq] at h
        subst h
        simp [syncTimestamp, hlast]
    | (n + 3) =>
      rw [sync_last_codeBad env a ie B blk n hlast] at h
      simp at h

/-- C7: evolution of `phase_change_timestamp`.  A state produced by the
cold rebuild has timestamp `None` exactly when no phase-change event was
ever observed up to its block; a warm advance never turns a `Some`
timestamp back into `None`; a warm advance changes the timestamp only
when a phase-change event fired in the new block, in which case the new
value is that block's timestamp; and conversely, a warm advance over a
block in which a phase-change event did fire (so that, by the bloom
filter's no-false-negatives guarantee, the bloom check passes) always
yields `Some` of that block's timestamp — so `None` persists only while
no event has ever been observed. -/
theorem phase_change_timestamp_evolution :
    (∀ env a ie B s, EpochState.sync env a ie B = .ok s →
       (s.phase_change_timestamp = none ↔ historyUpTo env a B = [])) ∧
    (∀ env (prev : EpochState) b s, prev.fold env b = .ok s →
       prev.phase_change_timestamp ≠ none →
       s.phase_change_timestamp ≠ none) ∧
    (∀ env (prev : EpochState) b s, prev.fold env b = .ok s →
       s.phase_change_timestamp ≠ prev.phase_change_timestamp →
       env.eventsIn prev.dapp_contract_address b ≠ [] ∧
       s.phase_change_timestamp = some (env.timestamp b)) ∧
    (∀ env (prev : EpochState) b s,
       (env.containsAddress b prev.dapp_contract_address &&
         env.containsTopic b) = true →
       env.eventsIn prev.dapp_contract_address b ≠ [] →
       prev.fold env b = .ok s →
       s.phase_change_timestamp = some (env.timestamp b)) := by
  have hfold : ∀ env (prev : EpochState) b s, prev.fold env b = .ok s →
      s.phase_change_timestamp = prev.phase_change_timestamp ∨
      (env.eventsIn prev.dapp_contract_address b ≠ [] ∧
        s.phase_change_timestamp = some (env.timestamp b)) := by
    intro env prev b s h
    cases hbloom : (env.containsAddress b prev.dapp_contract_address &&
        env.containsTopic b) with
    | false =>
      cases hp : prev.current_phase with
      | InputAccumulation =>
        rw [fold_noEvent_input env prev b hbloom hp] at h
        simp only [Except.ok.injEq] at h
        subst h
        exact Or.inl rfl
      | AwaitingConsensus se rs =>
        rw [fold_noEvent_consensus env prev b se rs hbloom hp] at h
        simp only [Except.ok.injEq] at h
        subst h
        exact Or.inl rfl
      | AwaitingDispute ce =>
        cases hse : env.sealed prev.dapp_contract_address
            ce.epoch_number b with
        | SealedEpochNoClaims s0 =>
          rw [fold_noEvent_dispute_noclaims env prev b ce s0 hbloom hp
            hse] at h
          simp at h
        | SealedEpochWithClaims c =>
          rw [fold_noEvent_dispute_claims env prev b ce c hbloom hp hse] at h
          simp only [Except.ok.injEq] at h
          subst h
          exact Or.inl rfl
    | true =>
      cases hlast : (env.eventsIn prev.dapp_contract_address b).getLast? with
      | none =>
        have hnil : env.eventsIn prev.dapp_contract_address b = [] :=
          List.getLast?_eq_none_iff.mp hlast
        rw [fold_event_empty env prev b hbloom hnil] at h
        simp only [Except.ok.injEq] at h
        subst h
        exact Or.inl rfl
      | some c =>
        have hne : env.eventsIn prev.dapp_contract_address b ≠ [] := by
          intro hnil
          rw [hnil] at hlast
          simp at hlast
        match c with
        | 0 =>
          rw [fold_event_code0 env prev b hbloom hlast] at h
          simp only [Except.ok.injEq] at h
          subst h
          exact Or.inr ⟨hne, rfl⟩
        | 1 =>
          rw [fold_event_code1 env prev b hbloom hlast] at h
          simp only [Except.ok.injEq] at h
          subst h
          exact Or.inr ⟨hne, rfl⟩
        | 2 =>
          cases hse : env.sealed prev.dapp_contract_address
              (env.finalized prev.dapp_contract_address
                prev.initial_epoch b).next_epoch b with
          | SealedEpochNoClaims s0 =>
            rw [fold_event_code2_noclaims env prev b s0 hbloom hlast
              hse] at h
            simp at h
          | SealedEpochWithClaims cc =>
            rw [fold_event_code2_claims env prev b cc hbloom hlast hse] at h
            simp only [Except.ok.injEq] at h
            subst h
            exact Or.inr ⟨hne, rfl⟩
        | (n + 3) =>
          rw [fold_event_codeBad env prev b n hbloom hlast] at h
          simp at h
  refine ⟨?_, ?_, ?_, ?_⟩
  · intro env a ie B s h
    rw [sync_ok_pct env a ie B s h]
    cases hl : historyUpTo env a B with
    | nil => simp [syncTimestamp, hl]
    | cons x xs =>
      have hne : historyUpTo env a B ≠ [] := by rw [hl]; simp
      obtain ⟨p, hp⟩ : ∃ p, (historyUpTo env a B).getLast? = some p := by
        cases hg : (historyUpTo env a B).getLast? with
        | none => exact absurd (List.getLast?_eq_none_iff.mp hg) hne
        | some p => exact ⟨p, rfl⟩
      obtain ⟨c, blk⟩ := p
      have hst : syncTimestamp env a B = some (env.timestamp blk) := by
        simp [syncTimestamp, hp]
      simp [hst, hl]
  · intro env prev b s h hprev
    rcases hfold env prev b s h with heq | ⟨_, heq⟩ <;> rw [heq]
    · exact hprev
    · simp
  · intro env prev b s h hchange
    rcases hfold env prev b s h with heq | ⟨hne, heq⟩
    · exact absurd heq hchange
    · exact ⟨hne, heq⟩
  · intro env prev b s hbloom hne h
    obtain ⟨c, hlast⟩ : ∃ c,
        (env.eventsIn prev.dapp_contract_address b).getLast? = some c := by
      cases hg : (env.eventsIn prev.dapp_contract_address b).getLast? with
      | none => exact absurd (List.getLast?_eq_none_iff.mp hg) hne
      | some c => exact ⟨c, rfl⟩
    match c with
    | 0 =>
      rw [fold_event_code0 env prev b hbloom hlast] at h
      simp only [Except.ok.injEq] at h
      subst h
      rfl
    | 1 =>
      rw [fold_event_code1 env prev b hbloom hlast] at h
      simp only [Except.ok.injEq] at h
      subst h
      rfl
    | 2 =>
      cases hse : env.sealed prev.dapp_contract_address
          (env.finalized prev.dapp_contract_address
            prev.initial_epoch b).next_epoch b with
      | SealedEpochNoClaims s0 =>
        rw [fold_event_code2_noclaims env prev b s0 hbloom hlast hse] at h
        simp at h
      | SealedEpochWithClaims cc =>
        rw [fold_event_code2_claims env prev b cc hbloom hlast hse] at h
        simp only [Except.ok.injEq] at h
        subst h
        rfl
    | (n + 3) =>
      rw [fold_event_codeBad env prev b n hbloom hlast] at h
      simp at h

/-- Witness for C7 at concrete inputs. -/
theorem phase_change_timestamp_evolution_witness :
    ((EpochState.mk 0 (.AwaitingConsensus (.SealedEpochWithClaims ⟨0, 0⟩) 0)
        ⟨0, 0⟩ ⟨1, 0⟩ (some 0) 0).phase_change_timestamp = none ↔
      historyUpTo envConsensus 0 0 = []) ∧
    ({ stAwaitCons with
       current_phase := .AwaitingConsensus (.SealedEpochWithClaims ⟨0, 0⟩) 0
       current_epoch :=
         (⟨1, 0⟩ : AccumulatingEpoch) } : EpochState).phase_change_timestamp ≠
      none ∧
    (EpochState.mk 0 (.AwaitingConsensus (.SealedEpochWithClaims ⟨0, 0⟩) 0)
      ⟨0, 0⟩ ⟨1, 0⟩ (some 0) 0).phase_change_timestamp =
      some (envConsensus.timestamp 0) := by
  refine ⟨?_, ?_, ?_⟩
  · exact phase_change_timestamp_evolution.1 envConsensus 0 0 0
      (EpochState.mk 0 (.AwaitingConsensus (.SealedEpochWithClaims ⟨0, 0⟩) 0)
        ⟨0, 0⟩ ⟨1, 0⟩ (some 0) 0) (by decide)
  · exact phase_change_timestamp_evolution.2.1 envQuiet stAwaitCons 1
      { stAwaitCons with
        current_phase := .AwaitingConsensus (.SealedEpochWithClaims ⟨0, 0⟩) 0
        current_epoch := (⟨1, 0⟩ : AccumulatingEpoch) } (by decide)
      (by decide)
  · exact phase_change_timestamp_evolution.2.2.2 envConsensus stInputAcc 0
      (EpochState.mk 0 (.AwaitingConsensus (.SealedEpochWithClaims ⟨0, 0⟩) 0)
        ⟨0, 0⟩ ⟨1, 0⟩ (some 0) 0) (by decide) (by decide) (by decide)

/-- Modelled from the spec: the sub-trackers are keyed by
`(address, epoch number)` and answer with the state of that very epoch
(spec §2, §6), so a snapshot fetched for epoch `e` reports epoch number
`e`.  The sub-trackers' code is not under `src/`. -/
def EnvEchoes (env : Env) : Prop :=
  (∀ a e b, (env.accumulating a e b).epoch_number = e) ∧
  (∀ a e b, (env.sealed a e b).epoch_number = e)

/-- The phase/epoch-count invariant: in `InputAccumulation` the (single
unfinalized) accumulating epoch sits at `finalized_epochs.next_epoch()`;
in `AwaitingConsensus`/`AwaitingDispute` the two unfinalized epochs are
the sealed one at `finalized_epochs.next_epoch()` and the accumulating
one right above it. -/
def EpochState.phaseEpochInvariant (s : EpochState) : Prop :=
  match s.current_phase with
  | .InputAccumulation =>
      s.current_epoch.epoch_number = s.finalized_epochs.next_epoch
  | .AwaitingConsensus se _ =>
      se.epoch_number = s.finalized_epochs.next_epoch ∧
      s.current_epoch.epoch_number = se.epoch_number + 1
  | .AwaitingDispute c =>
      c.epoch_number = s.finalized_epochs.next_epoch ∧
      s.current_epoch.epoch_number = c.epoch_number + 1

/-- C6: every state produced by the cold rebuild satisfies the phase/epoch
invariant, and the warm advance preserves it, given that the sub-trackers
echo the requested epoch number. -/
theorem phase_epoch_invariant_holds :
    (∀ env a ie B s, EnvEchoes env →
       EpochState.sync env a ie B = .ok s → s.phaseEpochInvariant) ∧
    (∀ env (prev : EpochState) b s, EnvEchoes env →
       prev.phaseEpochInvariant →
       prev.fold env b = .ok s → s.phaseEpochInvariant) := by
  constructor
  · intro env a ie B s hech hok
    obtain ⟨hacc, hsea⟩ := hech
    cases hlast : (historyUpTo env a B).getLast? with
    | none =>
      rw [sync_last_none env a ie B hlast] at hok
      simp only [Except.ok.injEq] at hok
      subst hok
      simp [EpochState.phaseEpochInvariant, hacc]
    | some p =>
      obtain ⟨c, blk⟩ := p
      match c with
      | 0 =>
        rw [sync_last_code0 env a ie B blk hlast] at hok
        simp only [Except.ok.injEq] at hok
        subst hok
        simp [EpochState.phaseEpochInvariant, hacc]
      | 1 =>
        rw [sync_last_code1 env a ie B blk hlast] at hok
        simp only [Except.ok.injEq] at hok
        subst hok
        simp [EpochState.phaseEpochInvariant, hacc, hsea]
      | 2 =>
        cases hse : env.sealed a (env.finalized a ie B).next_epoch B with
        | SealedEpochNoClaims s0 =>
          rw [sync_last_code2_noclaims env a ie B blk s0 hlast hse] at hok
          simp at hok
        | SealedEpochWithClaims c2 =>
          rw [sync_last_code2_claims env a ie B blk c2 hlast hse] at hok
          simp only [Except.ok.injEq] at hok
          subst hok
          have hc2 := hsea a (env.finalized a ie B).next_epoch B
          rw [hse] at hc2
          simp only [SealedEpochState.epoch_number] at hc2
          simp [EpochState.phaseEpochInvariant, hacc, hc2]
      | (n + 3) =>
        rw [sync_last_codeBad env a ie B blk n hlast] at hok
        simp at hok
  · intro env prev b s hech hinv hok
    obtain ⟨hacc, hsea⟩ := hech
    cases hbloom : (env.containsAddress b prev.dapp_contract_address &&
        env.containsTopic b) with
    | false =>
      cases hp : prev.current_phase with
      | InputAccumulation =>
        rw [fold_noEvent_input env prev b hbloom hp] at hok
        simp only [Except.ok.injEq] at hok
        subst hok
        simp only [EpochState.phaseEpochInvariant, hp] at hinv
        simp [EpochState.phaseEpochInvariant, hacc, hinv]
      | AwaitingConsensus se rs =>
        rw [fold_noEvent_consensus env prev b se rs hbloom hp] at hok
        simp only [Except.ok.injEq] at hok
        subst hok
        simp only [EpochState.phaseEpochInvariant, hp] at hinv
        simp [EpochState.phaseEpochInvariant, hacc, hsea, hinv]
      | AwaitingDispute ce =>
        cases hse : env.sealed prev.dapp_contract_address
            ce.epoch_number b with
        | SealedEpochNoClaims s0 =>
          rw [fold_noEvent_dispute_noclaims env prev b ce s0 hbloom hp
            hse] at hok
          simp at hok
        | SealedEpochWithClaims c2 =>
          rw [fold_noEvent_dispute_claims env prev b ce c2 hbloom hp
            hse] at hok
          simp only [Except.ok.injEq] at hok
          subst hok
          simp only [EpochState.phaseEpochInvariant, hp] at hinv
          have hc2 := hsea prev.dapp_contract_address ce.epoch_number b
          rw [hse] at hc2
          simp only [SealedEpochState.epoch_number] at hc2
          simp [EpochState.phaseEpochInvariant, hacc, hc2, hinv]
    | true =>
      cases hlast : (env.eventsIn prev.dapp_contract_address b).getLast? with
      | none =>
        have hnil : env.eventsIn prev.dapp_contract_address b = [] :=
          List.getLast?_eq_none_iff.mp hlast
        rw [fold_event_empty env prev b hbloom hnil] at hok
        simp only [Except.ok.injEq] at hok
        subst hok
        simp [EpochState.phaseEpochInvariant, hacc]
      | some c =>
        match c with
        | 0 =>
          rw [fold_event_code0 env prev b hbloom hlast] at hok
          simp only [Except.ok.injEq] at hok
          subst hok
          simp [EpochState.phaseEpochInvariant, hacc]
        | 1 =>
          rw [fold_event_code1 env prev b hbloom hlast] at hok
          simp only [Except.ok.injEq] at hok
          subst hok
          simp [EpochState.phaseEpochInvariant, hacc, hsea]
        | 2 =>
          cases hse : env.sealed prev.dapp_contract_address
              (env.finalized prev.dapp_contract_address
                prev.initial_epoch b).next_epoch b with
          | SealedEpochNoClaims s0 =>
            rw [fold_event_code2_noclaims env prev b s0 hbloom hlast
              hse] at hok
            simp at hok
          | SealedEpochWithClaims c2 =>
            rw [fold_event_code2_claims env prev b c2 hbloom hlast
              hse] at hok
            simp only [Except.ok.injEq] at hok
            subst hok
            have hc2 := hsea prev.dapp_contract_address
              (env.finalized prev.dapp_contract_address
                prev.initial_epoch b).next_epoch b
            rw [hse] at hc2
            simp only [SealedEpochState.epoch_number] at hc2
            simp [EpochState.phaseEpochInvariant, hacc, hc2]
        | (n + 3) =>
          rw [fold_event_codeBad env prev b n hbloom hlast] at hok
          simp at hok

/-- Witness for C6 at concrete inputs: `envConsensus` echoes epoch keys,
and both a rebuilt state and its advance satisfy the invariant. -/
theorem phase_epoch_invariant_holds_witness :
    (EpochState.mk 0 (.AwaitingConsensus (.SealedEpochWithClaims ⟨0, 0⟩) 0)
      ⟨0, 0⟩ ⟨1, 0⟩ (some 0) 0).phaseEpochInvariant ∧
    (EpochState.mk 0 (.AwaitingConsensus (.SealedEpochWithClaims ⟨0, 0⟩) 0)
      ⟨0, 0⟩ ⟨1, 0⟩ (some 0) 0).phaseEpochInvariant := by
  have hech : EnvEchoes envConsensus :=
    ⟨fun a e b => rfl, fun a e b => rfl⟩
  constructor
  · exact phase_epoch_invariant_holds.1 envConsensus 0 0 0
      (EpochState.mk 0 (.AwaitingConsensus (.SealedEpochWithClaims ⟨0, 0⟩) 0)
        ⟨0, 0⟩ ⟨1, 0⟩ (some 0) 0) hech (by decide)
  · exact phase_epoch_invariant_holds.2 envQuiet stAwaitCons 1
      (EpochState.mk 0 (.AwaitingConsensus (.SealedEpochWithClaims ⟨0, 0⟩) 0)
        ⟨0, 0⟩ ⟨1, 0⟩ (some 0) 0)
      ⟨fun a e b => rfl, fun a e b => rfl⟩ ⟨rfl, rfl⟩ (by decide)

/-! ### Hypotheses and helper lemmas for the sync/fold equivalence -/

/-- The bloom filter is exact for the tracked contract: the combined
address-and-signature check passes exactly when a phase-change event fired
in the block.  (The spec only promises soundness — no false negatives —
and tolerates false positives; exactness is the missing half that the
equivalence needs.) -/
def BloomExact (env : Env) (a : Nat) : Prop :=
  ∀ b, (env.containsAddress b a && env.containsTopic b) = true ↔
    env.eventsIn a b ≠ []

/-- The finalized-epoch ledger only changes in blocks where a phase-change
event fired (finalization emits a code-0 phase change, spec §4.2). -/
def FinalizedStable (env : Env) (a ie : Nat) : Prop :=
  ∀ b, env.eventsIn a (b + 1) = [] →
    env.finalized a ie (b + 1) = env.finalized a ie b

theorem bloom_false_of_no_events (env : Env) (a b : Nat)
    (hexact : BloomExact env a) (hev : env.eventsIn a b = []) :
    (env.containsAddress b a && env.containsTopic b) = false := by
  cases h : (env.containsAddress b a && env.containsTopic b) with
  | false => rfl
  | true => exact absurd hev ((hexact b).mp h)

theorem historyUpTo_succ_empty (env : Env) (a b : Nat)
    (hev : env.eventsIn a (b + 1) = []) :
    historyUpTo env a (b + 1) = historyUpTo env a b := by
  simp [historyUpTo, hev]

theorem historyUpTo_succ_getLast (env : Env) (a b c0 : Nat)
    (hc0 : (env.eventsIn a (b + 1)).getLast? = some c0) :
    (historyUpTo env a (b + 1)).getLast? = some (c0, b + 1) := by
  have hne : (env.eventsIn a (b + 1)).map (fun c => (c, b + 1)) ≠ [] := by
    intro h
    rw [List.map_eq_nil_iff] at h
    rw [h] at hc0
    simp at hc0
  rw [historyUpTo, List.getLast?_append_of_ne_nil _ hne,
    List.getLast?_map, hc0]
  rfl

/-- When a phase-change event fired in the new block, a warm advance from
any previous state of the same instance agrees with a cold rebuild at the
new block: the possible-event branch re-derives everything from the new
block alone. -/
theorem fold_sync_step_eventful (env : Env) (a ie b : Nat)
    (prev : EpochState)
    (hpa : prev.dapp_contract_address = a)
    (hpi : prev.initial_epoch = ie)
    (hev : env.eventsIn a (b + 1) ≠ [])
    (hbloom : (env.containsAddress (b + 1) a &&
      env.containsTopic (b + 1)) = true) :
    prev.fold env (b + 1) = EpochState.sync env a ie (b + 1) := by
  obtain ⟨c0, hc0⟩ : ∃ c0, (env.eventsIn a (b + 1)).getLast? = some c0 := by
    cases hg : (env.eventsIn a (b + 1)).getLast? with
    | none => exact absurd (List.getLast?_eq_none_iff.mp hg) hev
    | some c0 => exact ⟨c0, rfl⟩
  have hh : (historyUpTo env a (b + 1)).getLast? = some (c0, b + 1) :=
    historyUpTo_succ_getLast env a b c0 hc0
  have hbloom' : (env.containsAddress (b + 1) prev.dapp_contract_address &&
      env.containsTopic (b + 1)) = true := by rw [hpa]; exact hbloom
  have hc0' : (env.eventsIn prev.dapp_contract_address (b + 1)).getLast? =
      some c0 := by rw [hpa]; exact hc0
  match c0 with
  | 0 =>
    rw [fold_event_code0 env prev (b + 1) hbloom' hc0',
      sync_last_code0 env a ie (b + 1) (b + 1) hh]
    simp [hpa, hpi]
  | 1 =>
    rw [fold_event_code1 env prev (b + 1) hbloom' hc0',
      sync_last_code1 env a ie (b + 1) (b + 1) hh]
    simp [hpa, hpi]
  | 2 =>
    cases hse : env.sealed a
        (env.finalized a ie (b + 1)).next_epoch (b + 1) with
    | SealedEpochNoClaims s0 =>
      have hse' : env.sealed prev.dapp_contract_address
          (env.finalized prev.dapp_contract_address
            prev.initial_epoch (b + 1)).next_epoch (b + 1) =
          .SealedEpochNoClaims s0 := by rw [hpa, hpi]; exact hse
      rw [fold_event_code2_noclaims env prev (b + 1) s0 hbloom' hc0' hse',
        sync_last_code2_noclaims env a ie (b + 1) (b + 1) s0 hh hse]
    | SealedEpochWithClaims c =>
      have hse' : env.sealed prev.dapp_contract_address
          (env.finalized prev.dapp_contract_address
            prev.initial_epoch (b + 1)).next_epoch (b + 1) =
          .SealedEpochWithClaims c := by rw [hpa, hpi]; exact hse
      rw [fold_event_code2_claims env prev (b + 1) c hbloom' hc0' hse',
        sync_last_code2_claims env a ie (b + 1) (b + 1) c hh hse]
      simp [hpa, hpi]
  | (n + 3) =>
    rw [fold_event_codeBad env prev (b + 1) n hbloom' hc0',
      sync_last_codeBad env a ie (b + 1) (b + 1) n hh]

/-- One-step equivalence: a warm advance applied to the cold rebuild's
output for the previous block reproduces the cold rebuild at the new
block (including agreeing on errors), provided the bloom filter is exact,
the finalized-epoch ledger only moves in event blocks, and the
sub-trackers echo the requested epoch numbers. -/
theorem sync_fold_step (env : Env) (a ie b : Nat) (s : EpochState)
    (hexact : BloomExact env a) (hstable : FinalizedStable env a ie)
    (hech : EnvEchoes env)
    (hs : EpochState.sync env a ie b = .ok s) :
    s.fold env (b + 1) = EpochState.sync env a ie (b + 1) := by
  obtain ⟨hacc, hsea⟩ := hech
  by_cases hev : env.eventsIn a (b + 1) = []
  case neg =>
    have hpa : s.dapp_contract_address = a := by
      cases hlast : (historyUpTo env a b).getLast? with
      | none =>
        rw [sync_last_none env a ie b hlast] at hs
        simp only [Except.ok.injEq] at hs
        subst hs; rfl
      | some p =>
        obtain ⟨c, blk⟩ := p
        match c with
        | 0 =>
          rw [sync_last_code0 env a ie b blk hlast] at hs
          simp only [Except.ok.injEq] at hs
          subst hs; rfl
        | 1 =>
          rw [sync_last_code1 env a ie b blk hlast] at hs
          simp only [Except.ok.injEq] at hs
          subst hs; rfl
        | 2 =>
          cases hseb : env.sealed a (env.finalized a ie b).next_epoch b with
          | SealedEpochNoClaims s0 =>
            rw [sync_last_code2_noclaims env a ie b blk s0 hlast hseb] at hs
            simp at hs
          | SealedEpochWithClaims c =>
            rw [sync_last_code2_claims env a ie b blk c hlast hseb] at hs
            simp only [Except.ok.injEq] at hs
            subst hs; rfl
        | (n + 3) =>
          rw [sync_last_codeBad env a ie b blk n hlast] at hs
          simp at hs
    have hpi : s.initial_epoch = ie := by
      cases hlast : (historyUpTo env a b).getLast? with
      | none =>
        rw [sync_last_none env a ie b hlast] at hs
        simp only [Except.ok.injEq] at hs
        subst hs; rfl
      | some p =>
        obtain ⟨c, blk⟩ := p
        match c with
        | 0 =>
          rw [sync_last_code0 env a ie b blk hlast] at hs
          simp only [Except.ok.injEq] at hs
          subst hs; rfl
        | 1 =>
          rw [sync_last_code1 env a ie b blk hlast] at hs
          simp only [Except.ok.injEq] at hs
          subst hs; rfl
        | 2 =>
          cases hseb : env.sealed a (env.finalized a ie b).next_epoch b with
          | SealedEpochNoClaims s0 =>
            rw [sync_last_code2_noclaims env a ie b blk s0 hlast hseb] at hs
            simp at hs
          | SealedEpochWithClaims c =>
            rw [sync_last_code2_claims env a ie b blk c hlast hseb] at hs
            simp only [Except.ok.injEq] at hs
            subst hs; rfl
        | (n + 3) =>
          rw [sync_last_codeBad env a ie b blk n hlast] at hs
          simp at hs
    exact fold_sync_step_eventful env a ie b s hpa hpi hev
      ((hexact (b + 1)).mpr hev)
  case pos =>
    have hbloomF : (env.containsAddress (b + 1) a &&
        env.containsTopic (b + 1)) = false :=
      bloom_false_of_no_events env a (b + 1) hexact hev
    have hh : historyUpTo env a (b + 1) = historyUpTo env a b :=
      historyUpTo_succ_empty env a b hev
    have hF : env.finalized a ie (b + 1) = env.finalized a ie b :=
      hstable b hev
    cases hlast : (historyUpTo env a b).getLast? with
    | none =>
      rw [sync_last_none env a ie b hlast] at hs
      simp only [Except.ok.injEq] at hs
      subst hs
      rw [fold_noEvent_input env
        ⟨ie, .InputAccumulation, env.finalized a ie b,
          env.accumulating a (env.finalized a ie b).next_epoch b, none, a⟩
        (b + 1) hbloomF rfl,
        sync_last_none env a ie (b + 1) (by rw [hh]; exact hlast)]
      simp [hacc, hF]
    | some p =>
      obtain ⟨c, blk⟩ := p
      match c with
      | 0 =>
        rw [sync_last_code0 env a ie b blk hlast] at hs
        simp only [Except.ok.injEq] at hs
        subst hs
        rw [fold_noEvent_input env
          ⟨ie, .InputAccumulation, env.finalized a ie b,
            env.accumulating a (env.finalized a ie b).next_epoch b,
            some (env.timestamp blk), a⟩
          (b + 1) hbloomF rfl,
          sync_last_code0 env a ie (b + 1) blk (by rw [hh]; exact hlast)]
        simp [hacc, hF]
      | 1 =>
        rw [sync_last_code1 env a ie b blk hlast] at hs
        simp only [Except.ok.injEq] at hs
        subst hs
        rw [fold_noEvent_consensus env
          ⟨ie, .AwaitingConsensus
              (env.sealed a (env.finalized a ie b).next_epoch b)
              (env.timestamp blk),
            env.finalized a ie b,
            env.accumulating a ((env.finalized a ie b).next_epoch + 1) b,
            some (env.timestamp blk), a⟩
          (b + 1) (env.sealed a (env.finalized a ie b).next_epoch b)
          (env.timestamp blk) hbloomF rfl,
          sync_last_code1 env a ie (b + 1) blk (by rw [hh]; exact hlast)]
        simp [hacc, hsea, hF]
      | 2 =>
        cases hseb : env.sealed a (env.finalized a ie b).next_epoch b with
        | SealedEpochNoClaims s0 =>
          rw [sync_last_code2_noclaims env a ie b blk s0 hlast hseb] at hs
          simp at hs
        | SealedEpochWithClaims c =>
          rw [sync_last_code2_claims env a ie b blk c hlast hseb] at hs
          simp only [Except.ok.injEq] at hs
          subst hs
          have hcnum : c.epoch_number =
              (env.finalized a ie b).next_epoch := by
            have h2 := hsea a (env.finalized a ie b).next_epoch b
            rw [hseb] at h2
            simpa [SealedEpochState.epoch_number] using h2
          cases hse2 : env.sealed a
              (env.finalized a ie b).next_epoch (b + 1) with
          | SealedEpochNoClaims s0 =>
            rw [fold_noEvent_dispute_noclaims env
              ⟨ie, .AwaitingDispute c, env.finalized a ie b,
                env.accumulating a
                  ((env.finalized a ie b).next_epoch + 1) b,
                some (env.timestamp blk), a⟩
              (b + 1) c s0 hbloomF rfl (by rw [hcnum]; exact hse2),
              sync_last_code2_noclaims env a ie (b + 1) blk s0
                (by rw [hh]; exact hlast) (by rw [hF]; exact hse2)]
          | SealedEpochWithClaims c2 =>
            rw [fold_noEvent_dispute_claims env
              ⟨ie, .AwaitingDispute c, env.finalized a ie b,
                env.accumulating a
                  ((env.finalized a ie b).next_epoch + 1) b,
                some (env.timestamp blk), a⟩
              (b + 1) c c2 hbloomF rfl (by rw [hcnum]; exact hse2),
              sync_last_code2_claims env a ie (b + 1) blk c2
                (by rw [hh]; exact hlast) (by rw [hF]; exact hse2)]
            simp [hacc, hF]
      | (n + 3) =>
        rw [sync_last_codeBad env a ie b blk n hlast] at hs
        simp at hs

/-- C1 (amended): for every contract instance, `N` successive warm
advances applied to a cold rebuild at block `b0` — along a chain on which
every intermediate advance succeeded — produce exactly the result of a
cold rebuild performed directly at block `b0 + N` (field-for-field, and
agreeing on errors at the final block), provided the bloom filter is exact
for the instance, the finalized-epoch ledger only changes in blocks with
phase-change events, and the sub-trackers echo the requested epoch
numbers. -/
theorem fold_iterates_match_sync :
    ∀ env a ie b0 N,
      BloomExact env a → FinalizedStable env a ie → EnvEchoes env →
      (∀ k, k < N →
        ∃ s, foldChain env b0 (EpochState.sync env a ie b0) k = .ok s) →
      foldChain env b0 (EpochState.sync env a ie b0) N =
        EpochState.sync env a ie (b0 + N) := by
  intro env a ie b0 N hexact hstable hech hok
  induction N with
  | zero => simp [foldChain]
  | succ n ih =>
    have ihn := ih (fun k hk => hok k (Nat.lt_succ_of_lt hk))
    obtain ⟨s, hs⟩ := hok n (Nat.lt_succ_self n)
    rw [ihn] at hs
    show (foldChain env b0 (EpochState.sync env a ie b0) n).bind
      (fun s => s.fold env (b0 + (n + 1))) = _
    rw [ihn, hs]
    have hstep := sync_fold_step env a ie (b0 + n) s hexact hstable hech hs
    show s.fold env (b0 + (n + 1)) = _
    rw [show b0 + (n + 1) = (b0 + n) + 1 from rfl, hstep]

/-- Counterexample to C1 as stated: over `envConsensus` (whose bloom
filter has a false positive at block 1), the single warm advance from the
cold rebuild at block 0 succeeds yet differs from the cold rebuild at
block 1 — the advance resets the phase to `InputAccumulation` while the
rebuild still sees the historic code-1 event and stays in
`AwaitingConsensus`. -/
theorem fold_iterates_match_sync_counterexample :
    foldChain envConsensus 0 (EpochState.sync envConsensus 0 0 0) 1 =
      .ok ⟨0, .InputAccumulation, ⟨0, 0⟩, ⟨0, 0⟩, some 0, 0⟩ ∧
    EpochState.sync envConsensus 0 0 (0 + 1) =
      .ok ⟨0, .AwaitingConsensus (.SealedEpochWithClaims ⟨0, 0⟩) 0, ⟨0, 0⟩,
        ⟨1, 0⟩, some 0, 0⟩ ∧
    foldChain envConsensus 0 (EpochState.sync envConsensus 0 0 0) 1 ≠
      EpochState.sync envConsensus 0 0 (0 + 1) := by
  refine ⟨by decide, by decide, by decide⟩

/-- Witness for the amended C1 at a concrete input (`envQuiet`, whose
bloom filter is exact because it reports nothing and no events exist). -/
theorem fold_iterates_match_sync_witness :
    foldChain envQuiet 0 (EpochState.sync envQuiet 0 0 0) 2 =
      EpochState.sync envQuiet 0 0 (0 + 2) := by
  refine fold_iterates_match_sync envQuiet 0 0 0 2 ?_ ?_ ?_ ?_
  · intro b
    constructor
    · intro h
      simp [envQuiet] at h
    · intro h
      exact absurd rfl h
  · intro b _
    rfl
  · exact ⟨fun a e b => rfl, fun a e b => rfl⟩
  · intro k hk
    match k, hk with
    | 0, _ => exact ⟨⟨0, .InputAccumulation, ⟨0, 0⟩, ⟨0, 0⟩, none, 0⟩,
        by decide⟩
    | 1, _ => exact ⟨⟨0, .InputAccumulation, ⟨0, 0⟩, ⟨0, 0⟩, none, 0⟩,
        by decide⟩
